import Mathlib

/-!
# Verification of the second-brain-ocr processing pipeline core

Shallow embedding of the idempotency/state-tracking subsystem of the
`second-brain-ocr` repository: the path normalizer and state ledger
(`src/second_brain_ocr/state.py`), the retry policy used by the embedding
generator (`src/second_brain_ocr/embeddings.py`), the text chunker
(`EmbeddingGenerator.chunk_text`), the deterministic document-id derivation
(`SearchIndexer.index_document` in `src/second_brain_ocr/indexer.py`) and the
pipeline controller (`SecondBrainOCR.process_file` in
`src/second_brain_ocr/main.py`).

Strings are modelled as `List Char`.  File-system state is modelled as the
contents of the ledger file and its `.backup` sibling; JSON (de)serialisation
by the external `json` library is abstracted into structured file contents
(a file either fails to parse, parses to a structurally invalid value, or
parses to the dictionary shape the ledger writes).  Logging, timestamps and
the statistics counters written alongside the data are irrelevant to the
properties below and are noted where they are elided.
-/

namespace SecondBrainOCR

/-! ## Path normalizer (`StateManager._normalize_path`, state.py lines 95-109)

```python
normalized = unicodedata.normalize("NFKC", file_path)
normalized = re.sub(r"\s+", " ", normalized)
return normalized
```
-/

/-- The whitespace characters matched by Python's `\s` in Unicode mode
(`str.isspace` characters): ASCII whitespace and control separators plus the
Unicode space separators and line/paragraph separators. -/
def isPyWS (c : Char) : Bool :=
  c = ' ' || c = '\t' || c = '\n' || c.val = 11 || c.val = 12 || c = '\r' ||
  c.val = 28 || c.val = 29 || c.val = 30 || c.val = 31 ||
  c.val = 0x85 || c.val = 0xA0 || c.val = 0x1680 ||
  (0x2000 ≤ c.val && c.val ≤ 0x200A) ||
  c.val = 0x2028 || c.val = 0x2029 || c.val = 0x202F ||
  c.val = 0x205F || c.val = 0x3000

/-- Character-wise model of `unicodedata.normalize("NFKC", ·)` restricted to
the singleton compatibility mappings exercised by ledger identities: the
no-break and fixed-width space-separator characters all map to U+0020 under
NFKC; characters outside this table are kept.  (Full NFKC also rewrites
ligatures, width variants etc.; those mappings are character-wise singletons
as well and none of them produces or consumes whitespace, so they do not
affect the collapse step that follows.) -/
def nfkcChar (c : Char) : Char :=
  if c.val = 0xA0 || (0x2000 ≤ c.val && c.val ≤ 0x200A) ||
     c.val = 0x202F || c.val = 0x205F || c.val = 0x3000 then ' ' else c

/-- One pass of `re.sub(r"\s+", " ", s)`: every maximal run of whitespace is
replaced by a single U+0020.  The boolean argument records whether the
previous character belonged to a whitespace run whose replacement space has
already been emitted. -/
def collapseAux : Bool → List Char → List Char
  | _, [] => []
  | prevWS, c :: rest =>
    if isPyWS c then
      if prevWS then collapseAux true rest
      else ' ' :: collapseAux true rest
    else c :: collapseAux false rest

/-- Python `re.sub(r"\s+", " ", s)`. -/
def collapseWS (s : List Char) : List Char := collapseAux false s

/-- Model of `StateManager._normalize_path`: NFKC normalization followed by collapsing
every whitespace run to a single space. -/
def _normalize_path (p : List Char) : List Char :=
  collapseWS (p.map nfkcChar)

lemma nfkcChar_idem (c : Char) : nfkcChar (nfkcChar c) = nfkcChar c := by
  unfold nfkcChar
  split
  · simp
  · simp_all

lemma isPyWS_space : isPyWS ' ' = true := by decide

lemma nfkcChar_space : nfkcChar ' ' = ' ' := by decide

lemma collapseAux_idem (l : List Char) :
    ∀ b, collapseAux b (collapseAux b l) = collapseAux b l := by
  induction l with
  | nil => intro b; simp [collapseAux]
  | cons c rest ih =>
    intro b
    by_cases hws : isPyWS c
    · cases b with
      | true => simp only [collapseAux, hws, if_true]; exact ih true
      | false =>
        simp only [collapseAux, hws, if_true, if_false, isPyWS_space]
        rw [ih true]
    · simp only [collapseAux, hws, if_false, Bool.false_eq_true]
      rw [ih false]

/-- Applying the character-wise NFKC map to the output of
`collapseAux · (map nfkcChar l)` changes nothing: every emitted character is
either the replacement space or already in the range of `nfkcChar`. -/
lemma map_nfkc_collapse (l : List Char) :
    ∀ b, (collapseAux b (l.map nfkcChar)).map nfkcChar
      = collapseAux b (l.map nfkcChar) := by
  induction l with
  | nil => intro b; simp [collapseAux]
  | cons c rest ih =>
    intro b
    by_cases hws : isPyWS (nfkcChar c)
    · cases b with
      | true =>
        simp only [List.map_cons, collapseAux, hws, if_true]
        exact ih true
      | false =>
        simp only [List.map_cons, collapseAux, hws, if_true, Bool.false_eq_true,
          if_false, nfkcChar_space]
        rw [ih true]
    · simp only [List.map_cons, collapseAux, hws, if_false, Bool.false_eq_true,
        nfkcChar_idem]
      rw [ih false]

lemma normalize_path_idem (p : List Char) :
    _normalize_path (_normalize_path p) = _normalize_path p := by
  unfold _normalize_path collapseWS
  rw [map_nfkc_collapse p false, collapseAux_idem]

/-- Replacing a narrow no-break space (U+202F) by an ASCII space anywhere in a
path does not change its normalized identity. -/
lemma normalize_path_nnbsp (l r : List Char) :
    _normalize_path (l ++ Char.ofNat 0x202F :: r) = _normalize_path (l ++ ' ' :: r) := by
  unfold _normalize_path collapseWS
  have h : nfkcChar (Char.ofNat 0x202F) = nfkcChar ' ' := by decide
  simp only [List.map_append, List.map_cons, h]

/-- C3: the path normalizer is idempotent, paths differing only by a narrow
no-break space versus an ASCII space normalize identically, and in particular
`"/a b.jpg"` and `"/a b.jpg"` yield the same ledger identity. -/
theorem normalize_path_idempotent_and_ws :
    (∀ p : List Char, _normalize_path (_normalize_path p) = _normalize_path p) ∧
    (∀ l r : List Char,
      _normalize_path (l ++ Char.ofNat 0x202F :: r) = _normalize_path (l ++ ' ' :: r)) ∧
    _normalize_path ['/', 'a', Char.ofNat 0x202F, 'b', '.', 'j', 'p', 'g']
      = _normalize_path ['/', 'a', ' ', 'b', '.', 'j', 'p', 'g'] := by
  refine ⟨normalize_path_idem, normalize_path_nnbsp, ?_⟩
  decide

/-! ## State ledger (`StateManager`, state.py)

The file system is modelled by the contents of the ledger file
(`self.state_file`) and its `.json.backup` sibling; `none` means the file does
not exist.  JSON parsing by the external `json` module is abstracted into a
`FileContent`: bytes that raise `json.JSONDecodeError`, bytes that parse but
fail the structural checks of `_load_state` (top level not a dict, or
`processed_files` not a list), or the dict shape written by `_save_state`.
The `last_updated` / `total_files` / `statistics` fields written by
`_save_state` are never read back by `_load_state` and are elided.  A single
`writable` flag models whether file-system writes (`open(...,"w")`,
`Path.replace`) succeed or raise `OSError`. -/

/-- One element of the `processed_files` JSON list: a string, or a JSON value
of any other type (which `_load_state` filters out with `isinstance(p, str)`). -/
inductive PEntry where
  | str (s : List Char)
  | nonStr
deriving DecidableEq

/-- What the bytes of a ledger file parse to. -/
inductive FileContent where
  /-- Bytes on which `json.load` raises `json.JSONDecodeError`. -/
  | notJson
  /-- Valid JSON, but the top level is not a dict or `processed_files` is not a
  list, so `_load_state` raises (and catches) `ValueError`. -/
  | badFormat
  /-- The dict written by `_save_state`, carrying the `processed_files` list. -/
  | dict (entries : List PEntry)
deriving DecidableEq

/-- The two on-disk files the ledger touches. -/
structure FS where
  state : Option FileContent
  backup : Option FileContent
deriving DecidableEq

/-- The in-memory fields of `StateManager` that the claims depend on.  The
`processed_files` Python `set` is modelled as a list; `mark_processed` only
inserts identities that are absent and `_load_state` deduplicates, so list
membership coincides with set membership. -/
structure StateMgr where
  processed_files : List (List Char)
  files_marked : Nat
  max_retries : Nat
  auto_backup : Bool
deriving DecidableEq

/-- The string case of a `processed_files` entry. -/
def PEntry.str? : PEntry → Option (List Char)
  | .str s => some s
  | .nonStr => none

/-- Model of `StateManager._save_state` (state.py lines 195-278).  Rotates the current
state file to `.json.backup` when `auto_backup` is set and the file exists
(`Path.replace` moves it, so the state file briefly does not exist), then
writes the sorted `processed_files` list to a temp file and atomically renames
it over the state file.  The temp-write-plus-rename is modelled as one atomic
update; `sorted(...)` enumerates the set, modelled by enumerating the list
(element order is irrelevant to membership).  When the file system is not
writable every attempt raises `OSError`: the backup rotation fails with a
logged warning and the write loop exhausts its retries and returns `False`. -/
def _save_state (writable : Bool) (sm : StateMgr) (fs : FS) : Bool × FS :=
  let fs1 :=
    if sm.auto_backup && fs.state.isSome && writable then
      { state := none, backup := fs.state }
    else fs
  if writable then
    (true, { fs1 with state := some (.dict (sm.processed_files.map .str)) })
  else
    (false, fs1)

/-- The retry loop of `StateManager._load_state` (state.py lines 125-193),
indexed by the 0-based `attempt` number; the fuel argument bounds the
iteration count (the Python `for` runs at most `max_retries` times).  Returns
the loaded `processed_files` set, the file system after any backup
restoration, and how many times a restore from `.json.backup` was performed.
On `JSONDecodeError` the backup (if present, and if attempts remain) is moved
over the state file and the loop continues; on `ValueError` the loop sleeps
and retries the same file; a structurally valid dict yields the set
`{_normalize_path(p) for p in raw_paths if isinstance(p, str)}`. -/
def loadLoop (writable : Bool) (maxR : Nat) :
    Nat → Nat → FS → List (List Char) × FS × Nat
  | 0, _, fs => ([], fs, 0)
  | fuel + 1, attempt, fs =>
    match fs.state with
    | none =>
      -- `open` raises `OSError`: retry with backoff, then give up empty.
      if attempt < maxR - 1 then loadLoop writable maxR fuel (attempt + 1) fs
      else ([], fs, 0)
    | some .notJson =>
      if fs.backup.isSome && attempt < maxR - 1 && writable then
        let fs' : FS := { state := fs.backup, backup := none }
        let (res, fs'', n) := loadLoop writable maxR fuel (attempt + 1) fs'
        (res, fs'', n + 1)
      else ([], fs, 0)
    | some .badFormat =>
      if attempt < maxR - 1 then loadLoop writable maxR fuel (attempt + 1) fs
      else ([], fs, 0)
    | some (.dict entries) =>
      (((entries.filterMap PEntry.str?).map _normalize_path).dedup, fs, 0)

/-- Model of `StateManager._load_state` (state.py lines 111-193): missing file starts
fresh; otherwise run the retry loop.  Returns the loaded set, the resulting
file system, and the number of backup restorations performed. -/
def _load_state (writable : Bool) (maxR : Nat) (fs : FS) :
    List (List Char) × FS × Nat :=
  if fs.state.isNone then ([], fs, 0)
  else loadLoop writable maxR maxR 0 fs

/-- Constructing a `StateManager` over a state file runs `_load_state` with
the default `max_retries = 3` and `auto_backup = True`. -/
def freshManager (writable : Bool) (fs : FS) : StateMgr × FS :=
  let (loaded, fs', _) := _load_state writable 3 fs
  ({ processed_files := loaded, files_marked := 0, max_retries := 3,
     auto_backup := true }, fs')

/-- Model of `StateManager.is_processed` (state.py lines 280-299): invalid (empty)
paths are rejected, otherwise membership of the normalized identity. -/
def is_processed (sm : StateMgr) (file_path : List Char) : Bool :=
  if file_path = [] then false
  else decide (_normalize_path file_path ∈ sm.processed_files)

/-- Model of `StateManager.mark_processed` (state.py lines 301-341): invalid (empty)
paths return `False`; an identity already in the in-memory set returns `True`
immediately (no save); otherwise the identity is added, `files_marked` is
bumped and `_save_state` runs — its verdict is the return value, and the
in-memory set stays updated even when the save fails. -/
def mark_processed (writable : Bool) (sm : StateMgr) (fs : FS)
    (file_path : List Char) : Bool × StateMgr × FS :=
  if file_path = [] then (false, sm, fs)
  else
    let normalized := _normalize_path file_path
    if normalized ∈ sm.processed_files then (true, sm, fs)
    else
      let sm' : StateMgr := { sm with
        processed_files := normalized :: sm.processed_files,
        files_marked := sm.files_marked + 1 }
      let (success, fs') := _save_state writable sm' fs
      (success, sm', fs')

/-- Model of `StateManager.get_processed_count` (state.py lines 411-417). -/
def get_processed_count (sm : StateMgr) : Nat :=
  sm.processed_files.length

/-! ### C5: at-most-once marking -/

/-- C5: marking the same path a second time leaves `get_processed_count`
unchanged — after any first call, a second `mark_processed` on the same path
either rejects the path or hits the already-present early return, so the
in-memory set (and hence the count) does not grow. -/
theorem mark_processed_twice_count (writable : Bool) (sm : StateMgr) (fs : FS)
    (p : List Char) :
    get_processed_count
        (mark_processed writable
          (mark_processed writable sm fs p).2.1
          (mark_processed writable sm fs p).2.2 p).2.1
      = get_processed_count (mark_processed writable sm fs p).2.1 := by
  by_cases hp : p = []
  · simp [mark_processed, hp]
  · by_cases hmem : _normalize_path p ∈ sm.processed_files
    · simp [mark_processed, hp, hmem]
    · simp [mark_processed, hp, hmem]

/-! ### C10: no ledger write when the identity is already in memory -/

/-- C10 (amended to non-empty paths): when the normalized identity is already
in the in-memory set, `mark_processed` returns `True` without calling
`_save_state`: the manager and both on-disk files are untouched, for any
file-system writability. -/
theorem mark_processed_present_frame (writable : Bool) (sm : StateMgr) (fs : FS)
    (p : List Char) (hp : p ≠ [])
    (hmem : _normalize_path p ∈ sm.processed_files) :
    mark_processed writable sm fs p = (true, sm, fs) := by
  simp [mark_processed, hp, hmem]

/-- Witness for C10 at a concrete already-marked path on an unwritable file
system. -/
theorem mark_processed_present_frame_witness :
    mark_processed false
        { processed_files := [['a']], files_marked := 1, max_retries := 3,
          auto_backup := true }
        { state := none, backup := none } ['a']
      = (true,
         { processed_files := [['a']], files_marked := 1, max_retries := 3,
           auto_backup := true },
         { state := none, backup := none }) :=
  mark_processed_present_frame false _ _ ['a'] (by decide) (by decide)

/-- Counterexample to C10 as stated: the empty path `""` can carry an identity
that is in the in-memory set (a ledger file may contain `""`), yet
`mark_processed("")` hits the invalid-path guard and returns `False`, not
`True`. -/
theorem mark_processed_present_empty_counterexample :
    _normalize_path []
        ∈ (({ processed_files := [[]], files_marked := 0, max_retries := 3,
              auto_backup := true } : StateMgr)).processed_files ∧
    (mark_processed false
        { processed_files := [[]], files_marked := 0, max_retries := 3,
          auto_backup := true }
        { state := none, backup := none } []).1 = false := by
  constructor
  · decide
  · decide

/-! ### C4: ledger round-trip -/

lemma filterMap_str_map (l : List (List Char)) :
    (l.map PEntry.str).filterMap PEntry.str? = l := by
  induction l with
  | nil => rfl
  | cons x t ih => simp [List.filterMap_cons, PEntry.str?, ih]

/-- C4 (amended): when `mark_processed` returns `True` for a path whose
identity was not already in the in-memory set — so a save was actually
performed — a fresh `StateManager` constructed over the resulting state file
reports `is_processed` true for that path. -/
theorem mark_processed_roundtrip (writable : Bool) (sm : StateMgr) (fs : FS)
    (p : List Char) (hp : p ≠ [])
    (hnew : _normalize_path p ∉ sm.processed_files)
    (hok : (mark_processed writable sm fs p).1 = true) :
    is_processed (freshManager true (mark_processed writable sm fs p).2.2).1 p
      = true := by
  have hw : writable = true := by
    by_contra hw
    rw [Bool.not_eq_true] at hw
    simp [mark_processed, hp, hnew, _save_state, hw] at hok
  subst hw
  simp only [mark_processed, hp, if_neg hnew, _save_state]
  simp only [Bool.and_true, if_true]
  set l : List (List Char) := _normalize_path p :: sm.processed_files with hl
  have hmem : _normalize_path p
      ∈ ((((l.map PEntry.str).filterMap PEntry.str?).map _normalize_path).dedup) := by
    rw [filterMap_str_map, List.mem_dedup]
    exact List.mem_map.mpr ⟨_normalize_path p, by simp [hl], normalize_path_idem p⟩
  by_cases hb : sm.auto_backup && fs.state.isSome
  · simp only [hb, if_true]
    simp [freshManager, _load_state, loadLoop, is_processed, hp, hmem]
    exact ⟨_normalize_path p, ⟨_normalize_path p, by simp [hl], rfl⟩,
      normalize_path_idem p⟩
  · simp only [hb, Bool.false_eq_true, if_false]
    simp [freshManager, _load_state, loadLoop, is_processed, hp, hmem]
    exact ⟨_normalize_path p, ⟨_normalize_path p, by simp [hl], rfl⟩,
      normalize_path_idem p⟩

/-- Witness for C4's amended theorem at a concrete fresh marking. -/
theorem mark_processed_roundtrip_witness :
    is_processed
        (freshManager true
          (mark_processed true
            { processed_files := [], files_marked := 0, max_retries := 3,
              auto_backup := true }
            { state := none, backup := none } ['q']).2.2).1 ['q'] = true :=
  mark_processed_roundtrip true _ _ ['q'] (by decide) (by decide) (by decide)

/-- Counterexample to C4 as stated: after a save that failed on an unwritable
file system left the identity in memory only, a second `mark_processed` on the
same path returns `True` through the already-present early return without
persisting anything, and a fresh `StateManager` over the same (never-written)
state file does not report the path processed. -/
theorem mark_processed_roundtrip_counterexample :
    (mark_processed false
        (mark_processed false
          { processed_files := [], files_marked := 0, max_retries := 3,
            auto_backup := true }
          { state := none, backup := none } ['q']).2.1
        (mark_processed false
          { processed_files := [], files_marked := 0, max_retries := 3,
            auto_backup := true }
          { state := none, backup := none } ['q']).2.2 ['q']).1 = true ∧
    is_processed
        (freshManager true
          (mark_processed false
            (mark_processed false
              { processed_files := [], files_marked := 0, max_retries := 3,
                auto_backup := true }
              { state := none, backup := none } ['q']).2.1
            (mark_processed false
              { processed_files := [], files_marked := 0, max_retries := 3,
                auto_backup := true }
              { state := none, backup := none } ['q']).2.2 ['q']).2.2).1 ['q']
      = false := by
  constructor
  · decide
  · decide

/-! ### C7: corrupted ledger recovery -/

/-- C7 (amended): `_load_state` over a state file that is not valid JSON
performs exactly one restoration from the `.json.backup` file when one exists
(populating the set from the backup's contents when the backup is valid, and
falling back to the empty set when the backup is itself corrupt), and starts
empty with no restoration when no backup exists; a state file that parses as
JSON but fails the structural checks is retried and yields the empty set
without ever consulting the backup. -/
theorem load_state_corruption_recovery (fs : FS) (entries : List PEntry) :
    (fs.state = some .notJson → fs.backup = some (.dict entries) →
      _load_state true 3 fs
        = (((entries.filterMap PEntry.str?).map _normalize_path).dedup,
           { state := some (.dict entries), backup := none }, 1)) ∧
    (fs.state = some .notJson → fs.backup = some .notJson →
      _load_state true 3 fs
        = ([], { state := some .notJson, backup := none }, 1)) ∧
    (fs.state = some .notJson → fs.backup = none →
      _load_state true 3 fs = ([], fs, 0)) ∧
    (fs.state = some .badFormat →
      (_load_state true 3 fs).1 = [] ∧ (_load_state true 3 fs).2.2 = 0) := by
  obtain ⟨st, bk⟩ := fs
  refine ⟨?_, ?_, ?_, ?_⟩
  · rintro rfl rfl
    simp [_load_state, loadLoop]
  · rintro rfl rfl
    simp [_load_state, loadLoop]
  · rintro rfl rfl
    simp [_load_state, loadLoop]
  · rintro rfl
    constructor
    · simp [_load_state, loadLoop]
    · simp [_load_state, loadLoop]

/-- Witness for C7's amended theorem: a corrupt state file next to a backup
holding `["x"]` recovers the set `{"x"}` with exactly one restoration. -/
theorem load_state_corruption_recovery_witness :
    _load_state true 3 { state := some .notJson,
                         backup := some (.dict [.str ['x']]) }
      = ([['x']], { state := some (.dict [.str ['x']]), backup := none }, 1) := by
  have h := (load_state_corruption_recovery
    { state := some .notJson, backup := some (.dict [.str ['x']]) }
    [.str ['x']]).1 rfl rfl
  rw [h]
  decide

/-- Counterexample to C7 as stated: a state file that parses as JSON but is
not the expected dict shape "fails to parse as valid structured data", yet
with a valid backup holding `["x"]` alongside it the loader performs no
recovery and yields the empty set — the backup's non-empty contents are never
consulted. -/
theorem load_state_corruption_recovery_counterexample :
    (_load_state true 3 { state := some .badFormat,
                          backup := some (.dict [.str ['x']]) }).1 = [] ∧
    (_load_state true 3 { state := some .badFormat,
                          backup := some (.dict [.str ['x']]) }).2.2 = 0 ∧
    ((([PEntry.str ['x']].filterMap PEntry.str?).map _normalize_path).dedup
      ≠ ([] : List (List Char))) := by
  refine ⟨by decide, by decide, by decide⟩

/-! ## Pipeline controller (`SecondBrainOCR.process_file`, main.py lines 271-372)

The three external collaborators (OCR extractor, embedding generator, search
indexer) are modelled by an environment fixing the outcome each would return
for this file: `extract_text_with_metadata` yields `None` or a dict whose
`"text"` may be empty (both falsy cases fail the `not ocr_result or not
ocr_result.get("text")` check), `generate_embedding` yields `None` or a
vector (an empty vector is falsy and fails `if not embedding`), and
`index_document` yields a bool.  Exceptions raised by a collaborator are
caught by the controller's blanket handler and produce the same `False`
return with no ledger interaction as a `None` outcome, so they are folded
into the failure outcomes.  Calls to the collaborators are recorded in an
event trace; notifier calls are fire-and-forget and not modelled. -/

/-- Result dict of `OCRProcessor.extract_text_with_metadata`, restricted to
the fields `process_file` reads. -/
structure OcrResult where
  text : List Char
  word_count : Nat
deriving DecidableEq

/-- Fixed collaborator outcomes for one `process_file` run. -/
structure PipelineEnv where
  file_exists : Bool
  is_file : Bool
  ocr_result : Option OcrResult
  embedding : Option (List Int)
  index_success : Bool

/-- A collaborator invocation made by the pipeline controller. -/
inductive Event where
  | calledOCR
  | calledEmbed
  | calledIndex
  | calledMark
deriving DecidableEq

/-- Model of `SecondBrainOCR.process_file`: validate the path, skip if the ledger
already holds the identity, then extract → embed → index, marking the ledger
only after a successful index (the verdict of `mark_processed` is ignored and
the run still returns `True`).  Returns the run's verdict, resulting manager
and file system, and the trace of collaborator calls. -/
def process_file (writable : Bool) (env : PipelineEnv) (sm : StateMgr) (fs : FS)
    (file_path : List Char) : Bool × StateMgr × FS × List Event :=
  if !env.file_exists then (false, sm, fs, [])
  else if !env.is_file then (false, sm, fs, [])
  else if is_processed sm file_path then (false, sm, fs, [])
  else
    match env.ocr_result with
    | none => (false, sm, fs, [.calledOCR])
    | some r =>
      if r.text = [] then (false, sm, fs, [.calledOCR])
      else
        match env.embedding with
        | none => (false, sm, fs, [.calledOCR, .calledEmbed])
        | some e =>
          if e = [] then (false, sm, fs, [.calledOCR, .calledEmbed])
          else if env.index_success then
            let (_, sm', fs') := mark_processed writable sm fs file_path
            (true, sm', fs', [.calledOCR, .calledEmbed, .calledIndex, .calledMark])
          else
            (false, sm, fs, [.calledOCR, .calledEmbed, .calledIndex])

/-- The failure conditions of C1: extraction fails or yields empty text, the
embedding stage fails or yields a falsy vector, or the indexer reports
failure. -/
def stageFailure (env : PipelineEnv) : Bool :=
  (match env.ocr_result with | none => true | some r => r.text = []) ||
  (match env.embedding with | none => true | some e => e = []) ||
  !env.index_success

/-! ### C1: mark only after successful index -/

/-- C1: a `process_file` run marks the ledger at most once, and whenever any
stage fails (extraction, empty text, embedding, or indexing) the run performs
no ledger mark, leaves the manager and state file untouched, and the file's
identity is absent from the ledger afterward whenever it was absent before. -/
theorem process_file_mark_only_after_index (writable : Bool) (env : PipelineEnv)
    (sm : StateMgr) (fs : FS) (p : List Char) :
    (process_file writable env sm fs p).2.2.2.count .calledMark ≤ 1 ∧
    (stageFailure env = true →
      Event.calledMark ∉ (process_file writable env sm fs p).2.2.2 ∧
      (process_file writable env sm fs p).2.1 = sm ∧
      (process_file writable env sm fs p).2.2.1 = fs ∧
      (_normalize_path p ∉ sm.processed_files →
        _normalize_path p ∉ (process_file writable env sm fs p).2.1.processed_files)) := by
  obtain ⟨fex, fis, ocr, emb, idx⟩ := env
  refine ⟨?_, fun hfail => ?_⟩
  · unfold process_file
    repeat' split
    all_goals simp [List.count_cons]
  · unfold stageFailure at hfail
    unfold process_file
    repeat' split
    all_goals exact ⟨by simp_all, by simp_all, by simp_all, fun h => by simp_all⟩

/-- Witness for C1 at a failing indexer: no mark event, manager and file
system untouched. -/
theorem process_file_mark_only_after_index_witness :
    (process_file true
        ⟨true, true, some ⟨['t'], 1⟩, some [1], false⟩
        { processed_files := [], files_marked := 0, max_retries := 3,
          auto_backup := true }
        { state := none, backup := none } ['q']).2.2.2.count .calledMark ≤ 1 ∧
    stageFailure ⟨true, true, some ⟨['t'], 1⟩, some [1], false⟩ = true ∧
    Event.calledMark ∉ (process_file true
        ⟨true, true, some ⟨['t'], 1⟩, some [1], false⟩
        { processed_files := [], files_marked := 0, max_retries := 3,
          auto_backup := true }
        { state := none, backup := none } ['q']).2.2.2 := by
  have h := process_file_mark_only_after_index true
    ⟨true, true, some ⟨['t'], 1⟩, some [1], false⟩
    { processed_files := [], files_marked := 0, max_retries := 3,
      auto_backup := true }
    { state := none, backup := none } ['q']
  exact ⟨h.1, by decide, (h.2 (by decide)).1⟩

/-! ### C2: skip-on-seen -/

/-- C2: when the ledger already holds the path's identity, `process_file`
invokes no collaborator at all — it returns `False` with an empty call trace,
leaving the manager (hence the ledger) and the state file untouched. -/
theorem process_file_skip_on_seen (writable : Bool) (env : PipelineEnv)
    (sm : StateMgr) (fs : FS) (p : List Char)
    (hseen : is_processed sm p = true) :
    process_file writable env sm fs p = (false, sm, fs, []) := by
  unfold process_file
  rcases henv : env.file_exists with _ | _ <;>
    rcases henv2 : env.is_file with _ | _ <;> simp_all

/-- Witness for C2 at a concrete already-processed path. -/
theorem process_file_skip_on_seen_witness :
    process_file true ⟨true, true, some ⟨['t'], 1⟩, some [1], true⟩
        { processed_files := [['a']], files_marked := 0, max_retries := 3,
          auto_backup := true }
        { state := none, backup := none } ['a']
      = (false,
         { processed_files := [['a']], files_marked := 0, max_retries := 3,
           auto_backup := true },
         { state := none, backup := none }, []) :=
  process_file_skip_on_seen true _ _ _ ['a'] (by decide)

/-! ## Retry policy (`EmbeddingGenerator._generate_embedding_with_retry`,
embeddings.py lines 58-136)

The outcome of each attempted API call is fixed by an environment mapping the
1-based attempt number to what `self.client.embeddings.create` does: succeed,
raise `RateLimitError` (retry with exponential backoff), raise
`APITimeoutError` / `APIConnectionError` (retry with linear backoff), raise an
`APIError` carrying an optional status code (retried linearly only for 5xx),
or raise an unexpected exception (never retried).  Sleeps are recorded as
exact rationals, `time.sleep` itself being external.
`OCRProcessor._perform_ocr_with_retry` (ocr.py lines 73-146) implements the
same schedule with the same `max_retries = 3` and `base_delay = 1.0`. -/

/-- What one `embeddings.create` call does. -/
inductive AttemptOutcome where
  | success (emb : List Int)
  | rateLimit
  | timeout
  | connError
  | apiError (status : Option Nat)
  | unexpected

/-- The attempt loop `for attempt in range(1, self.max_retries + 1)`, with the
list of executed sleep delays accumulated in order.  The structural recursion
is on the number of attempts remaining; `attempt` is the 1-based counter. -/
def retryAttempts (outcomes : Nat → AttemptOutcome) (maxR : Nat) (base : ℚ) :
    Nat → Nat → Option (List Int) × List ℚ
  | 0, _ => (none, [])
  | remaining + 1, attempt =>
    match outcomes attempt with
    | .success emb => (some emb, [])
    | .rateLimit =>
      if attempt < maxR then
        let d := base * 2 ^ (attempt - 1)
        let (res, ds) := retryAttempts outcomes maxR base remaining (attempt + 1)
        (res, d :: ds)
      else (none, [])
    | .timeout =>
      if attempt < maxR then
        let d := base * attempt
        let (res, ds) := retryAttempts outcomes maxR base remaining (attempt + 1)
        (res, d :: ds)
      else (none, [])
    | .connError =>
      if attempt < maxR then
        let d := base * attempt
        let (res, ds) := retryAttempts outcomes maxR base remaining (attempt + 1)
        (res, d :: ds)
      else (none, [])
    | .apiError status =>
      match status with
      | some code =>
        if 500 ≤ code then
          if attempt < maxR then
            let d := base * attempt
            let (res, ds) := retryAttempts outcomes maxR base remaining (attempt + 1)
            (res, d :: ds)
          else (none, [])
        else (none, [])
      | none => (none, [])
    | .unexpected => (none, [])

/-- Model of `EmbeddingGenerator._generate_embedding_with_retry`: run the attempt loop
with `max_retries` attempts starting at attempt 1; exhaustion surfaces `None`
to the caller rather than re-raising the last exception. -/
def _generate_embedding_with_retry (outcomes : Nat → AttemptOutcome)
    (maxR : Nat) (base : ℚ) : Option (List Int) × List ℚ :=
  retryAttempts outcomes maxR base maxR 1

/-- C6: when every attempt raises a rate-limit error (the
retry-with-exponential-delay classification), with `base_delay = 1.0` and
`max_attempts = 3` the executed sleep sequence is exactly `[1.0, 2.0]` — one
sleep of `base_delay * 2^(attempt-1)` after each of the first two failed
attempts and none after the third — and the exhausted loop surfaces the
failure as a `None` value instead of raising. -/
theorem retry_exponential_schedule (outcomes : Nat → AttemptOutcome)
    (hrl : ∀ i, outcomes i = .rateLimit) :
    _generate_embedding_with_retry outcomes 3 1 = (none, [1, 2]) := by
  unfold _generate_embedding_with_retry
  simp [retryAttempts, hrl 1, hrl 2, hrl 3]

/-- Witness for C6 at the constant rate-limit environment. -/
theorem retry_exponential_schedule_witness :
    _generate_embedding_with_retry (fun _ => .rateLimit) 3 1 = (none, [1, 2]) :=
  retry_exponential_schedule (fun _ => .rateLimit) (fun _ => rfl)

/-! ## Deterministic document ID (`SearchIndexer.index_document`,
indexer.py lines 300-353)

```python
doc_id = str(file_path).replace("/", "_").replace("\\", "_")
doc_id = re.sub(r"[^\w\-=]", "_", doc_id)
doc_id = doc_id.lstrip("_")
```
-/

/-- A character matched by the allow-list `[\w\-=]`: word characters (letters,
digits, underscore) plus hyphen and equals.  Python's `\w` additionally
matches non-ASCII Unicode word characters; the ASCII model is exact for every
character the claim constrains ('/', '\\', '.', '_'), and narrowing `\w`
cannot introduce a disallowed character since rejected characters are
replaced by '_'. -/
def docIdAllowed (c : Char) : Bool :=
  c.isAlphanum || c = '_' || c = '-' || c = '='

/-- The document-id derivation inside `SearchIndexer.index_document`: replace
both path separators by '_', replace every character outside the allow-list
by '_', then strip leading underscores. -/
def derive_doc_id (file_path : List Char) : List Char :=
  let s1 := file_path.map (fun c => if c = '/' || c = '\\' then '_' else c)
  let s2 := s1.map (fun c => if docIdAllowed c then c else '_')
  s2.dropWhile (fun c => c = '_')

lemma dropWhile_head_not (l : List Char) :
    ((l.dropWhile (fun c => c = '_')).head?) ≠ some '_' := by
  induction l with
  | nil => simp
  | cons c t ih =>
    by_cases h : c = '_'
    · simpa [List.dropWhile, h] using ih
    · simp [List.dropWhile, h]

lemma mem_dropWhile_of_mem (p : Char → Bool) (l : List Char) (c : Char)
    (h : c ∈ l.dropWhile p) : c ∈ l := by
  induction l with
  | nil => simp [List.dropWhile] at h
  | cons x t ih =>
    by_cases hx : p x
    · simp only [List.dropWhile, hx] at h
      exact List.mem_cons_of_mem x (ih h)
    · simpa [List.dropWhile, hx] using h

/-- C8: the document ID is a pure function of the path (repeated derivation
yields the identical ID), contains no path separator and no dot — every
character outside the letters/digits/underscore/hyphen/equals allow-list has
been replaced by the '_' delimiter — and never begins with the delimiter. -/
theorem doc_id_deterministic_and_safe (file_path : List Char) :
    derive_doc_id file_path = derive_doc_id file_path ∧
    '/' ∉ derive_doc_id file_path ∧
    '\\' ∉ derive_doc_id file_path ∧
    '.' ∉ derive_doc_id file_path ∧
    (derive_doc_id file_path).head? ≠ some '_' := by
  refine ⟨rfl, ?_, ?_, ?_, dropWhile_head_not _⟩
  all_goals
    intro hmem
    have hmem' := mem_dropWhile_of_mem _ _ _ hmem
    rw [List.mem_map] at hmem'
    obtain ⟨a, _, ha⟩ := hmem'
    revert ha
    by_cases hall : docIdAllowed a
    · simp only [hall, if_true]
      intro ha
      subst ha
      simp [docIdAllowed, Char.isAlphanum, Char.isAlpha, Char.isDigit,
        Char.isUpper, Char.isLower] at hall
    · simp only [hall, Bool.false_eq_true, if_false]
      decide

/-! ## Text chunking (`EmbeddingGenerator.chunk_text`, embeddings.py
lines 220-279)

`chunk_text` works on character counts (1 token ≈ 4 characters): text at most
`max_tokens * 4` characters is returned whole, longer text is cut into
windows of `max_chars` characters, preferring to end a window at the last
sentence-ending punctuation found in the second half of the window; each
window is stripped and kept only when longer than 10 characters; the next
window starts `overlap_chars` before the previous end (but at least half a
window further on, to guarantee progress). -/

/-- Python `str.strip()`: remove leading and trailing whitespace. -/
def pyStrip (l : List Char) : List Char :=
  ((l.dropWhile isPyWS).reverse.dropWhile isPyWS).reverse

/-- One step of the `rfind` scan: adopt index `i` when `pat` occurs at `i`
within the `[a, b)` window, otherwise keep the candidate found so far. -/
def rfindStep (text pat : List Char) (a b : Nat) (acc : Option Nat) (i : Nat) :
    Option Nat :=
  if a ≤ i && i + pat.length ≤ b && ((text.drop i).take pat.length == pat)
  then some i else acc

/-- Python `text.rfind(pat, a, b)` (minus the `-1` encoding): the largest
index `i` with `a ≤ i`, `i + pat.length ≤ b` and `pat` occurring at `i`.
The ascending fold keeps the last, i.e. greatest, matching index. -/
def rfindIn (text pat : List Char) (a b : Nat) : Option Nat :=
  (List.range b).foldl (rfindStep text pat a b) none

/-- The boundary preference list `sentence_endings`. -/
def sentenceEndings : List (List Char) :=
  [['.', ' '], ['!', ' '], ['?', ' '], ['\n', '\n'], ['\n'], [';', ' '], [',', ' ']]

/-- The `for punct in sentence_endings` loop: the first pattern found in
`[start + max_chars/2, endPos)` at an index greater than `start` moves the
window end just past that occurrence; otherwise the hard cut stands. -/
def findBoundaryAux (text : List Char) (start endPos mc : Nat) :
    List (List Char) → Nat
  | [] => endPos
  | pat :: rest =>
    match rfindIn text pat (start + mc / 2) endPos with
    | some i =>
      if start < i then i + pat.length
      else findBoundaryAux text start endPos mc rest
    | none => findBoundaryAux text start endPos mc rest

/-- The `while start < len(text)` loop of `chunk_text`.  The fuel argument
bounds the iteration count; each iteration advances `start` by at least
`max_chars / 2`, so `text.length + 1` units of fuel are never exhausted. -/
def chunkLoop (text : List Char) (mc ovc : Nat) : Nat → Nat → List (List Char)
  | 0, _ => []
  | fuel + 1, start =>
    if start < text.length then
      let end0 := start + mc
      let endPos :=
        if end0 < text.length then findBoundaryAux text start end0 mc sentenceEndings
        else end0
      let chunk := pyStrip ((text.drop start).take (endPos - start))
      let kept := if chunk ≠ [] ∧ 10 < chunk.length then [chunk] else []
      if text.length ≤ endPos then kept
      else kept ++ chunkLoop text mc ovc fuel (max (endPos - ovc) (start + mc / 2))
    else []

/-- Model of `EmbeddingGenerator.chunk_text`: empty or whitespace-only text yields no
chunks; `max_tokens`/`overlap` fall back to the configured defaults
(8000/200) when falsy, mirroring `max_tokens or Config.TEXT_CHUNK_MAX_TOKENS`;
text within the `max_tokens * 4` character budget is returned whole;
otherwise the window loop runs from position 0. -/
def chunk_text (text : List Char) (maxTokens overlap : Nat) : List (List Char) :=
  if pyStrip text = [] then []
  else
    let mt := if maxTokens = 0 then 8000 else maxTokens
    let ov := if overlap = 0 then 200 else overlap
    let mc := mt * 4
    let ovc := ov * 4
    if text.length ≤ mc then [text]
    else chunkLoop text mc ovc (text.length + 1) 0

lemma length_dropWhile_le (p : Char → Bool) (l : List Char) :
    (l.dropWhile p).length ≤ l.length := by
  induction l with
  | nil => simp [List.dropWhile]
  | cons x t ih =>
    by_cases hx : p x
    · simp only [List.dropWhile, hx]
      exact le_trans ih (Nat.le_succ _)
    · simp [List.dropWhile, hx]

lemma length_pyStrip_le (l : List Char) : (pyStrip l).length ≤ l.length := by
  unfold pyStrip
  calc ((l.dropWhile isPyWS).reverse.dropWhile isPyWS).reverse.length
      = ((l.dropWhile isPyWS).reverse.dropWhile isPyWS).length :=
        List.length_reverse _
    _ ≤ (l.dropWhile isPyWS).reverse.length := length_dropWhile_le _ _
    _ = (l.dropWhile isPyWS).length := List.length_reverse _
    _ ≤ l.length := length_dropWhile_le _ _

lemma rfindIn_some_bounds (text pat : List Char) (a b i : Nat)
    (h : rfindIn text pat a b = some i) : a ≤ i ∧ i + pat.length ≤ b := by
  unfold rfindIn at h
  have key : ∀ (l : List Nat) (acc : Option Nat),
      (∀ j, acc = some j → a ≤ j ∧ j + pat.length ≤ b) →
      ∀ j, (l.foldl (rfindStep text pat a b) acc) = some j →
        a ≤ j ∧ j + pat.length ≤ b := by
    intro l
    induction l with
    | nil => intro acc hacc j hj; exact hacc j hj
    | cons x t ih =>
      intro acc hacc j hj
      rw [List.foldl_cons] at hj
      refine ih _ ?_ j hj
      intro k hk
      unfold rfindStep at hk
      by_cases hcond : (a ≤ x && x + pat.length ≤ b
          && ((text.drop x).take pat.length == pat)) = true
      · rw [if_pos hcond] at hk
        cases hk
        simp only [Bool.and_eq_true, decide_eq_true_eq] at hcond
        exact ⟨hcond.1.1, hcond.1.2⟩
      · rw [if_neg hcond] at hk
        exact hacc k hk
  exact key (List.range b) none (by intro j hj; cases hj) i h

lemma findBoundaryAux_le (text : List Char) (start endPos mc : Nat)
    (pats : List (List Char)) :
    findBoundaryAux text start endPos mc pats ≤ endPos := by
  induction pats with
  | nil => simp [findBoundaryAux]
  | cons pat rest ih =>
    unfold findBoundaryAux
    cases h : rfindIn text pat (start + mc / 2) endPos with
    | none => exact ih
    | some i =>
      by_cases hi : start < i
      · simp only [hi, if_true]
        exact (rfindIn_some_bounds text pat _ endPos i h).2
      · simp only [hi, if_false]
        exact ih

/-- Membership in the kept-window list means being the (stripped) window
itself, with the floor guard satisfied. -/
lemma mem_kept {chunk c : List Char}
    (hc : c ∈ (if chunk ≠ [] ∧ 10 < chunk.length then [chunk] else [])) :
    c = chunk ∧ 10 < chunk.length := by
  split at hc
  · next hcond => exact ⟨List.mem_singleton.mp hc, hcond.2⟩
  · exact absurd hc (List.not_mem_nil c)

/-- Every chunk the window loop emits fits between its start position and the
end of the text. -/
lemma chunkLoop_mem_length (text : List Char) (mc ovc : Nat) :
    ∀ fuel start, ∀ c ∈ chunkLoop text mc ovc fuel start,
      c.length ≤ text.length - start := by
  intro fuel
  induction fuel with
  | zero => intro start c hc; simp [chunkLoop] at hc
  | succ n ih =>
    intro start c hc
    unfold chunkLoop at hc
    by_cases hlt : start < text.length
    · rw [if_pos hlt] at hc
      dsimp only at hc
      set endPos := (if start + mc < text.length
          then findBoundaryAux text start (start + mc) mc sentenceEndings
          else start + mc) with hEnd
      set chunk := pyStrip ((text.drop start).take (endPos - start)) with hChunk
      have hchunklen : chunk.length ≤ text.length - start := by
        calc chunk.length
            ≤ ((text.drop start).take (endPos - start)).length :=
              length_pyStrip_le _
          _ ≤ (text.drop start).length := by
              rw [List.length_take]; exact min_le_right _ _
          _ = text.length - start := List.length_drop _ _
      split at hc
      · exact (mem_kept hc).1 ▸ hchunklen
      · rcases List.mem_append.mp hc with hmem | hmem
        · exact (mem_kept hmem).1 ▸ hchunklen
        · have h := ih _ c hmem
          have hstart : start ≤ max (endPos - ovc) (start + mc / 2) :=
            le_trans (Nat.le_add_right start (mc / 2)) (le_max_right _ _)
          exact le_trans h (Nat.sub_le_sub_left hstart text.length)
    · rw [if_neg hlt] at hc
      exact absurd hc (List.not_mem_nil c)

/-- Every chunk the window loop emits is longer than the 10-character floor. -/
lemma chunkLoop_mem_floor (text : List Char) (mc ovc : Nat) :
    ∀ fuel start, ∀ c ∈ chunkLoop text mc ovc fuel start, 10 < c.length := by
  intro fuel
  induction fuel with
  | zero => intro start c hc; simp [chunkLoop] at hc
  | succ n ih =>
    intro start c hc
    unfold chunkLoop at hc
    by_cases hlt : start < text.length
    · rw [if_pos hlt] at hc
      dsimp only at hc
      set endPos := (if start + mc < text.length
          then findBoundaryAux text start (start + mc) mc sentenceEndings
          else start + mc) with hEnd
      set chunk := pyStrip ((text.drop start).take (endPos - start)) with hChunk
      split at hc
      · have h := mem_kept hc
        exact h.1 ▸ h.2
      · rcases List.mem_append.mp hc with hmem | hmem
        · have h := mem_kept hmem
          exact h.1 ▸ h.2
        · exact ih _ c hmem
    · rw [if_neg hlt] at hc
      exact absurd hc (List.not_mem_nil c)

/-- C9 (amended): for text with non-whitespace content of length at most
`max_tokens * 4`, `chunk_text` returns the single chunk equal to the input;
for text one character over that threshold the whole input is never returned
as a single chunk and every returned chunk is, after trimming, longer than
the 10-character floor — but fewer than two chunks may be returned, because
windows whose stripped content falls at or below the floor are discarded as
noise. -/
theorem chunk_text_boundary (text : List Char) (maxTokens overlap : Nat)
    (hmt : maxTokens ≠ 0) (hov : overlap ≠ 0) :
    (pyStrip text ≠ [] → text.length ≤ maxTokens * 4 →
      chunk_text text maxTokens overlap = [text]) ∧
    (text.length = maxTokens * 4 + 1 →
      chunk_text text maxTokens overlap ≠ [text] ∧
      ∀ c ∈ chunk_text text maxTokens overlap, 10 < c.length) := by
  constructor
  · intro hstrip hlen
    unfold chunk_text
    rw [if_neg hstrip]
    dsimp only
    rw [if_neg hmt, if_neg hov, if_pos hlen]
  · intro hlen
    have hmc : 4 ≤ maxTokens * 4 := by omega
    by_cases hstrip : pyStrip text = []
    · unfold chunk_text
      rw [if_pos hstrip]
      exact ⟨by simp, by simp⟩
    · have hexpand : chunk_text text maxTokens overlap
          = chunkLoop text (maxTokens * 4) (overlap * 4) (text.length + 1) 0 := by
        unfold chunk_text
        rw [if_neg hstrip]
        dsimp only
        rw [if_neg hmt, if_neg hov, if_neg (by omega)]
      have hmemlt : ∀ c ∈ chunk_text text maxTokens overlap,
          c.length < text.length := by
        intro c hc
        rw [hexpand] at hc
        unfold chunkLoop at hc
        rw [if_pos (show (0:Nat) < text.length by omega)] at hc
        dsimp only at hc
        rw [if_pos (show 0 + maxTokens * 4 < text.length by omega)] at hc
        have hfb : findBoundaryAux text 0 (0 + maxTokens * 4) (maxTokens * 4)
            sentenceEndings ≤ 0 + maxTokens * 4 := findBoundaryAux_le _ _ _ _ _
        rw [if_neg (show ¬ text.length ≤ findBoundaryAux text 0
            (0 + maxTokens * 4) (maxTokens * 4) sentenceEndings by omega)] at hc
        rcases List.mem_append.mp hc with hmem | hmem
        · have h := (mem_kept hmem).1
          have hle : c.length ≤ findBoundaryAux text 0 (0 + maxTokens * 4)
              (maxTokens * 4) sentenceEndings - 0 := by
            rw [h]
            exact le_trans (length_pyStrip_le _) (List.length_take_le _ _)
          omega
        · have h := chunkLoop_mem_length text (maxTokens * 4) (overlap * 4)
            text.length _ c hmem
          have hstart : maxTokens * 4 / 2
              ≤ max (findBoundaryAux text 0 (0 + maxTokens * 4) (maxTokens * 4)
                  sentenceEndings - overlap * 4) (0 + maxTokens * 4 / 2) := by
            exact le_trans (by omega) (le_max_right _ _)
          have hhalf : 2 ≤ maxTokens * 4 / 2 := by omega
          omega
      refine ⟨fun heq => ?_, fun c hc => ?_⟩
      · have := hmemlt text (by rw [heq]; exact List.mem_singleton.mpr rfl)
        omega
      · rw [hexpand] at hc
        exact chunkLoop_mem_floor text _ _ _ _ c hc

/-- Witness for C9's amended theorem: a 21-character text with
`max_tokens = 5` (threshold 20) and `overlap = 3` is not returned whole, and a
20-character text is returned as the single whole chunk. -/
theorem chunk_text_boundary_witness :
    chunk_text (List.replicate 21 'a') 5 3 ≠ [List.replicate 21 'a'] ∧
    chunk_text (List.replicate 20 'a') 5 3 = [List.replicate 20 'a'] := by
  constructor
  · exact ((chunk_text_boundary (List.replicate 21 'a') 5 3 (by decide)
      (by decide)).2 (by decide)).1
  · exact (chunk_text_boundary (List.replicate 20 'a') 5 3 (by decide)
      (by decide)).1 (by decide) (by decide)

/-- Counterexample to C9 as stated: the single-space text is non-empty and
within the threshold yet yields no chunk at all (whitespace-only input is
rejected), and the 21-character text `"b" + 19 spaces + "c"` — one character
over the `5 * 4` threshold — yields zero chunks rather than at least two,
because both stripped windows (`"b"` and `"c"`) fall below the 10-character
floor and are discarded. -/
theorem chunk_text_boundary_counterexample :
    chunk_text [' '] 5 3 ≠ [[' ']] ∧
    (chunk_text ('b' :: (List.replicate 19 ' ' ++ ['c'])) 5 3).length = 0 ∧
    ('b' :: (List.replicate 19 ' ' ++ ['c'])).length = 5 * 4 + 1 := by
  refine ⟨by decide, by decide, by decide⟩

end SecondBrainOCR
